import Mathlib

/-!
Shallow embedding of the per-opcode trace-generation layer of an EVM-style
zero-knowledge virtual machine (`evm/src/witness/operation.rs`), together
with theorems settling the specified properties of its opcode handlers.

Machine integers are modelled as `Nat` with explicit `% 2^w` at the points
where the source performs a truncating cast or where wrap-around is
possible; 256-bit EVM words are `Nat` values, with `< 2^256` hypotheses
where a claim quantifies over 256-bit operands.  Fallible paths are
explicit: a handler returns `none` for a process-fatal assertion failure
(a Rust `assert!` or an arithmetic panic), and `some (.error e, tr)` for a
recoverable `ProgramError` (the trace sink `tr` is returned alongside, so
that the absence of partial log emission on failure is expressible).
-/

namespace Plonky2Evm

/-- The 256-bit word modulus. -/
def U256_MOD : Nat := 2 ^ 256

/-- Modelled from the spec: a logical partition of the address space
(`memory/segments.rs` is not part of the extracted sources).  Only the
stack and code segments are exercised by the handlers. -/
inductive Segment where
  | Stack
  | Code
deriving DecidableEq, Repr

/-- The per-step machine register state (`witness/state.rs`):
execution context id, kernel-mode flag, program counter (u32) and stack
height (u32). -/
structure RegistersState where
  context : Nat
  is_kernel : Bool
  program_counter : Nat
  stack_len : Nat
deriving DecidableEq, Repr

/-- Modelled from the spec: the single recoverable error kind of
`witness/errors.rs` that this layer can raise. -/
inductive ProgramError where
  | StackUnderflow
deriving DecidableEq, Repr

/-- Direction of a logged memory access. -/
inductive MemOpKind where
  | read
  | write
deriving DecidableEq, Repr

/-- Modelled from the spec: one memory-access log entry
(`witness/memory.rs` is not part of the extracted sources): the channel
slot within the step, the address triple (context, segment, offset), the
direction and the 256-bit value. -/
structure MemoryOp where
  channel : Nat
  context : Nat
  segment : Segment
  offset : Nat
  kind : MemOpKind
  value : Nat
deriving DecidableEq, Repr

/-- The read-only memory view: a total lookup from address triples to
256-bit words. -/
def MemoryState : Type := Nat → Segment → Nat → Nat

/-- Modelled from the spec: one row of the bitwise-logic sub-table
(`logic::columns` is not part of the extracted sources).  Field elements
are represented by their canonical natural values — every value written
here is below `2^32` and so injects into the field.  The flat column
array is modelled by named regions: the three one-hot selectors, the two
256-entry bit-decomposition regions and the eight 32-bit result limbs. -/
structure LogicRow where
  is_and : Nat
  is_or : Nat
  is_xor : Nat
  input0 : Nat → Nat
  input1 : Nat → Nat
  result_cols : Nat → Nat

/-- Modelled from the spec: the append-only trace sink
(`witness/traces.rs` is not part of the extracted sources).  The CPU rows
are opaque to every claim, so only their number is tracked. -/
structure Traces where
  memory_ops : List MemoryOp
  logic_rows : List LogicRow
  cpu_len : Nat

/-- `Traces::push_memory`: append one memory-access log entry. -/
def Traces.push_memory (t : Traces) (op : MemoryOp) : Traces :=
  { t with memory_ops := t.memory_ops ++ [op] }

/-- `Traces::push_logic`: append one logic sub-table row. -/
def Traces.push_logic (t : Traces) (r : LogicRow) : Traces :=
  { t with logic_rows := t.logic_rows ++ [r] }

/-- `Traces::push_cpu`: append one CPU row (contents opaque here). -/
def Traces.push_cpu (t : Traces) : Traces :=
  { t with cpu_len := t.cpu_len + 1 }

/-- Modelled from the spec: the number of general-purpose memory channels
per CPU row (`cpu/membus.rs` is not part of the extracted sources).  The
spec's positional-channel contract (§4.1) together with the channel usage
of `generate_swap` (reads in channels 0 and 1, the in-place write in
channel `NUM_GP_CHANNELS - 2`, the push in channel `NUM_GP_CHANNELS - 1`,
in ascending order) and the requirement that the swap write share the
channel of `generate_syscall`'s third read (channel 2) fixes the value 4. -/
def NUM_GP_CHANNELS : Nat := 4

/-- `mem_read_gp_with_log_and_fill` (modelled from the spec:
`witness/util.rs` is not part of the extracted sources): a non-mutating
lookup returning the word together with a read log entry tagged with the
given channel. -/
def mem_read_gp_with_log_and_fill (channel : Nat) (ctx : Nat) (seg : Segment)
    (off : Nat) (mem : MemoryState) : Nat × MemoryOp :=
  let v := mem ctx seg off
  (v, ⟨channel, ctx, seg, off, .read, v⟩)

/-- `mem_write_gp_log_and_fill` (modelled from the spec): a write log
entry tagged with the given channel; the store update itself is delegated
to the external memory collaborator. -/
def mem_write_gp_log_and_fill (channel : Nat) (ctx : Nat) (seg : Segment)
    (off : Nat) (v : Nat) : MemoryOp :=
  ⟨channel, ctx, seg, off, .write, v⟩

/-- `stack_pop_with_log_and_fill::<K>` (modelled from the spec): reads the
top `K` stack slots (the `i`-th from the top at offset `stack_len - 1 - i`,
in channel `i`) and decreases `stack_len` by `K`; fails with
`StackUnderflow` when `stack_len < K`, leaving the state unmodified. -/
def stack_pop_with_log_and_fill (K : Nat) (rs : RegistersState)
    (mem : MemoryState) :
    Except ProgramError ((Fin K → Nat × MemoryOp) × RegistersState) :=
  if rs.stack_len < K then .error .StackUnderflow
  else
    .ok ((fun i =>
        let off := rs.stack_len - 1 - i.val
        let v := mem rs.context .Stack off
        (v, ⟨i.val, rs.context, .Stack, off, .read, v⟩)),
      { rs with stack_len := rs.stack_len - K })

/-- `stack_push_log_and_fill` (modelled from the spec): writes the value
at offset `stack_len` in channel `NUM_GP_CHANNELS - 1` and increments
`stack_len`. -/
def stack_push_log_and_fill (rs : RegistersState) (v : Nat) :
    MemoryOp × RegistersState :=
  (⟨NUM_GP_CHANNELS - 1, rs.context, .Stack, rs.stack_len, .write, v⟩,
   { rs with stack_len := rs.stack_len + 1 })

/-- Outcome of one handler invocation: `none` is a process-fatal abort
(an `assert!` failure or arithmetic panic); otherwise the recoverable
result together with the trace sink after the step. -/
def GenOutcome : Type := Option (Except ProgramError RegistersState × Traces)

/-- The closed variant of bitwise logic operations. -/
inductive BinaryLogicOp where
  | And
  | Or
  | Xor
deriving DecidableEq, Repr

/-- `BinaryLogicOp::result`: the pure bitwise AND/OR/XOR of two 256-bit
words (exact on `Nat` values below `2^256`). -/
def BinaryLogicOp.result : BinaryLogicOp → Nat → Nat → Nat
  | .And, a, b => a &&& b
  | .Or, a, b => a ||| b
  | .Xor, a, b => a ^^^ b

/-- The closed variant of decoded operations dispatched to the handlers. -/
inductive Operation where
  | Dup (n : Nat)
  | Swap (n : Nat)
  | Iszero
  | Not
  | Syscall (opcode : Nat)
  | Eq
  | ExitKernel
  | BinaryLogic (op : BinaryLogicOp)
  | NotImplemented
deriving DecidableEq, Repr

/-- `make_logic_row`: the logic sub-table row for one bitwise operation: a
one-hot selector, the 256 individual bits of each operand (one field
element per bit), and the result packed as the low and high 32-bit halves
of each of its four 64-bit limbs (eight columns). -/
def make_logic_row (op : BinaryLogicOp) (in0 in1 result : Nat) : LogicRow :=
  { is_and := if op = .And then 1 else 0
    is_or := if op = .Or then 1 else 0
    is_xor := if op = .Xor then 1 else 0
    input0 := fun i => if i < 256 then (if Nat.testBit in0 i then 1 else 0) else 0
    input1 := fun i => if i < 256 then (if Nat.testBit in1 i then 1 else 0) else 0
    result_cols := fun i =>
      if i < 8 then
        let limb := result / 2 ^ (64 * (i / 2)) % 2 ^ 64
        if i % 2 = 0 then limb % 2 ^ 32 else limb / 2 ^ 32 % 2 ^ 32
      else 0 }

/-- `generate_binary_logic_op`: pop two operands, push their bitwise
combination, and emit one logic sub-table row. -/
def generate_binary_logic_op (op : BinaryLogicOp) (rs : RegistersState)
    (mem : MemoryState) (traces : Traces) : GenOutcome :=
  match stack_pop_with_log_and_fill 2 rs mem with
  | .error e => some (.error e, traces)
  | .ok (popped, rs1) =>
    let (in0, log_in0) := popped 0
    let (in1, log_in1) := popped 1
    let result := op.result in0 in1
    let (log_out, rs2) := stack_push_log_and_fill rs1 result
    some (.ok rs2,
      ((((traces.push_logic (make_logic_row op in0 in1 result)).push_memory
        log_in0).push_memory log_in1).push_memory log_out).push_cpu)

/-- `generate_dup`: read the stack slot at offset
`stack_len - (1 + n)` without popping and push a copy on top; underflow of
that offset is a checked failure before any mutation. -/
def generate_dup (n : Nat) (rs : RegistersState) (mem : MemoryState)
    (traces : Traces) : GenOutcome :=
  if rs.stack_len < 1 + n then some (.error .StackUnderflow, traces)
  else
    let other_addr_lo := rs.stack_len - (1 + n)
    let (val, log_in) :=
      mem_read_gp_with_log_and_fill 0 rs.context .Stack other_addr_lo mem
    let (log_out, rs1) := stack_push_log_and_fill rs val
    some (.ok rs1,
      ((traces.push_memory log_in).push_memory log_out).push_cpu)

/-- `generate_swap`: pop the top, read the slot at offset
`stack_len - (2 + n)`, overwrite that slot with the old top (channel
`NUM_GP_CHANNELS - 2`), and push the value read; underflow of the target
offset is a checked failure before any mutation. -/
def generate_swap (n : Nat) (rs : RegistersState) (mem : MemoryState)
    (traces : Traces) : GenOutcome :=
  if rs.stack_len < 2 + n then some (.error .StackUnderflow, traces)
  else
    let other_addr_lo := rs.stack_len - (2 + n)
    match stack_pop_with_log_and_fill 1 rs mem with
    | .error e => some (.error e, traces)
    | .ok (popped, rs1) =>
      let (in0, log_in0) := popped 0
      let (in1, log_in1) :=
        mem_read_gp_with_log_and_fill 1 rs.context .Stack other_addr_lo mem
      let log_out0 :=
        mem_write_gp_log_and_fill (NUM_GP_CHANNELS - 2) rs.context .Stack
          other_addr_lo in0
      let (log_out1, rs2) := stack_push_log_and_fill rs1 in1
      some (.ok rs2,
        ((((traces.push_memory log_in0).push_memory log_in1).push_memory
          log_out0).push_memory log_out1).push_cpu)

/-- `generate_not`: pop one operand and push its 256-bit complement. -/
def generate_not (rs : RegistersState) (mem : MemoryState)
    (traces : Traces) : GenOutcome :=
  match stack_pop_with_log_and_fill 1 rs mem with
  | .error e => some (.error e, traces)
  | .ok (popped, rs1) =>
    let (x, log_in) := popped 0
    let result := U256_MOD - 1 - x % U256_MOD
    let (log_out, rs2) := stack_push_log_and_fill rs1 result
    some (.ok rs2,
      ((traces.push_memory log_in).push_memory log_out).push_cpu)

/-- `generate_iszero`: pop one operand `x` and push `1` when `x = 0`,
`0` otherwise.  (The inverse-witness written into the CPU row by
`generate_pinv_diff` is part of the opaque CPU row.) -/
def generate_iszero (rs : RegistersState) (mem : MemoryState)
    (traces : Traces) : GenOutcome :=
  match stack_pop_with_log_and_fill 1 rs mem with
  | .error e => some (.error e, traces)
  | .ok (popped, rs1) =>
    let (x, log_in) := popped 0
    let result : Nat := if x = 0 then 1 else 0
    let (log_out, rs2) := stack_push_log_and_fill rs1 result
    some (.ok rs2,
      ((traces.push_memory log_in).push_memory log_out).push_cpu)

/-- `generate_syscall`: read three consecutive code bytes of context 0 at
the jump-table slot for `opcode` (channels 0, 1, 2), push the packed
return-info word (pre-step program counter in the low 32 bits, pre-step
kernel flag at bit 32), then jump to the big-endian assembly of the three
bytes in kernel mode.  The jump-table base address (resolved from the
kernel's global label table, which is external to this layer) is passed
in as `jumptable_addr`.  A handler address that does not fit in a `u32`
is an arithmetic panic (`U256::as_u32`), modelled as `none`. -/
def generate_syscall (jumptable_addr : Nat) (opcode : Nat)
    (rs : RegistersState) (mem : MemoryState) (traces : Traces) :
    GenOutcome :=
  let handler_addr_addr := (jumptable_addr + opcode) % 2 ^ 32
  let (handler_addr0, log_in0) :=
    mem_read_gp_with_log_and_fill 0 0 .Code handler_addr_addr mem
  let (handler_addr1, log_in1) :=
    mem_read_gp_with_log_and_fill 1 0 .Code ((handler_addr_addr + 1) % 2 ^ 32) mem
  let (handler_addr2, log_in2) :=
    mem_read_gp_with_log_and_fill 2 0 .Code ((handler_addr_addr + 2) % 2 ^ 32) mem
  let handler_addr :=
    handler_addr0 * 2 ^ 16 % U256_MOD + handler_addr1 * 2 ^ 8 % U256_MOD
      + handler_addr2
  if handler_addr < 2 ^ 32 then
    let new_program_counter := handler_addr
    let syscall_info :=
      rs.program_counter % 2 ^ 32
        + (if rs.is_kernel then 1 else 0) * 2 ^ 32
    let (log_out, rs1) := stack_push_log_and_fill rs syscall_info
    let rs2 := { rs1 with program_counter := new_program_counter,
                          is_kernel := true }
    some (.ok rs2,
      ((((traces.push_memory log_in0).push_memory log_in1).push_memory
        log_in2).push_memory log_out).push_cpu)
  else none

/-- `generate_eq`: pop two operands and push `1` when they are equal,
`0` otherwise. -/
def generate_eq (rs : RegistersState) (mem : MemoryState)
    (traces : Traces) : GenOutcome :=
  match stack_pop_with_log_and_fill 2 rs mem with
  | .error e => some (.error e, traces)
  | .ok (popped, rs1) =>
    let (in0, log_in0) := popped 0
    let (in1, log_in1) := popped 1
    let result : Nat := if in0 = in1 then 1 else 0
    let (log_out, rs2) := stack_push_log_and_fill rs1 result
    some (.ok rs2,
      (((traces.push_memory log_in0).push_memory log_in1).push_memory
        log_out).push_cpu)

/-- `generate_exit_kernel`: pop one packed word; the new program counter
is the low 32 bits of limb 0, and the kernel flag is decoded from the
HIGH 32 bits of limb 1 of the word (`kexit_info_u64[1] >> 32`, i.e. bits
96..128) — transcribed exactly as the source computes it.  The `assert!`
that the decoded flag value is 0 or 1 is modelled as `none` on failure. -/
def generate_exit_kernel (rs : RegistersState) (mem : MemoryState)
    (traces : Traces) : GenOutcome :=
  match stack_pop_with_log_and_fill 1 rs mem with
  | .error e => some (.error e, traces)
  | .ok (popped, rs1) =>
    let (kexit_info, log_in) := popped 0
    let limb0 := kexit_info % 2 ^ 64
    let limb1 := kexit_info / 2 ^ 64 % 2 ^ 64
    let program_counter := limb0 % 2 ^ 32
    let is_kernel_mode_val := limb1 / 2 ^ 32 % 2 ^ 32
    if is_kernel_mode_val = 0 ∨ is_kernel_mode_val = 1 then
      let rs2 := { rs1 with program_counter := program_counter,
                            is_kernel := is_kernel_mode_val != 0 }
      some (.ok rs2, ((traces.push_memory log_in).push_cpu))
    else none

/-- The empty trace sink, the state of the sink at the start of a step in
the end-to-end scenarios. -/
def emptyTraces : Traces := ⟨[], [], 0⟩

/-- The channel indices of the logged memory accesses, in log order. -/
def Traces.channels (t : Traces) : List Nat :=
  t.memory_ops.map MemoryOp.channel

/-- Applying a list of memory-access logs to the memory view: each write
log updates its address, read logs are non-mutating (the write application
the external memory collaborator performs after a step). -/
def MemoryState.applyOps (mem : MemoryState) (ops : List MemoryOp) :
    MemoryState :=
  ops.foldl (fun m op =>
    match op.kind with
    | .write => fun c s o =>
        if c = op.context ∧ s = op.segment ∧ o = op.offset then op.value
        else m c s o
    | .read => m) mem

section SpecLemmas

/-- Successful one-word pop: the guard passes and the single read is the
top-of-stack slot in channel 0. -/
theorem stack_pop1_ok (rs : RegistersState) (mem : MemoryState)
    (h : 1 ≤ rs.stack_len) :
    stack_pop_with_log_and_fill 1 rs mem =
      .ok ((fun _ =>
          (mem rs.context .Stack (rs.stack_len - 1),
           ⟨0, rs.context, .Stack, rs.stack_len - 1, .read,
            mem rs.context .Stack (rs.stack_len - 1)⟩)),
        { rs with stack_len := rs.stack_len - 1 }) := by
  unfold stack_pop_with_log_and_fill
  rw [if_neg (by omega)]
  refine congrArg _ (Prod.ext ?_ rfl)
  funext i
  have hi : i.val = 0 := by omega
  simp [hi]

/-- Successful two-word pop: the guard passes, the top two slots are read
in channels 0 and 1, and the stack height drops by 2. -/
theorem stack_pop2_ok (rs : RegistersState) (mem : MemoryState)
    (h : 2 ≤ rs.stack_len) :
    stack_pop_with_log_and_fill 2 rs mem =
      .ok ((fun i =>
          (mem rs.context .Stack (rs.stack_len - 1 - i.val),
           ⟨i.val, rs.context, .Stack, rs.stack_len - 1 - i.val, .read,
            mem rs.context .Stack (rs.stack_len - 1 - i.val)⟩)),
        { rs with stack_len := rs.stack_len - 2 }) := by
  unfold stack_pop_with_log_and_fill
  rw [if_neg (by omega)]

/-- Explicit successful run of `generate_iszero`. -/
theorem iszero_spec (rs : RegistersState) (mem : MemoryState) (tr : Traces)
    (h : 1 ≤ rs.stack_len) :
    generate_iszero rs mem tr =
      some (.ok rs,
        ((tr.push_memory
            ⟨0, rs.context, .Stack, rs.stack_len - 1, .read,
             mem rs.context .Stack (rs.stack_len - 1)⟩).push_memory
          ⟨3, rs.context, .Stack, rs.stack_len - 1, .write,
           if mem rs.context .Stack (rs.stack_len - 1) = 0 then 1 else 0⟩).push_cpu) := by
  unfold generate_iszero
  rw [stack_pop1_ok rs mem h]
  simp only [stack_push_log_and_fill, NUM_GP_CHANNELS]
  have h1 : rs.stack_len - 1 + 1 = rs.stack_len := by omega
  simp [h1]

/-- Explicit successful run of `generate_eq`. -/
theorem eq_spec (rs : RegistersState) (mem : MemoryState) (tr : Traces)
    (h : 2 ≤ rs.stack_len) :
    generate_eq rs mem tr =
      some (.ok { rs with stack_len := rs.stack_len - 1 },
        (((tr.push_memory
            ⟨0, rs.context, .Stack, rs.stack_len - 1, .read,
             mem rs.context .Stack (rs.stack_len - 1)⟩).push_memory
          ⟨1, rs.context, .Stack, rs.stack_len - 2, .read,
           mem rs.context .Stack (rs.stack_len - 2)⟩).push_memory
          ⟨3, rs.context, .Stack, rs.stack_len - 2, .write,
           if mem rs.context .Stack (rs.stack_len - 1)
              = mem rs.context .Stack (rs.stack_len - 2) then 1 else 0⟩).push_cpu) := by
  unfold generate_eq
  rw [stack_pop2_ok rs mem h]
  simp only [stack_push_log_and_fill, NUM_GP_CHANNELS]
  have h1 : rs.stack_len - 1 - 1 = rs.stack_len - 2 := by omega
  have h2 : rs.stack_len - 2 + 1 = rs.stack_len - 1 := by omega
  have h3 : rs.stack_len - 1 - 0 = rs.stack_len - 1 := by omega
  simp [h1, h2, h3]

/-- Explicit successful run of `generate_not`. -/
theorem not_spec (rs : RegistersState) (mem : MemoryState) (tr : Traces)
    (h : 1 ≤ rs.stack_len) :
    generate_not rs mem tr =
      some (.ok rs,
        ((tr.push_memory
            ⟨0, rs.context, .Stack, rs.stack_len - 1, .read,
             mem rs.context .Stack (rs.stack_len - 1)⟩).push_memory
          ⟨3, rs.context, .Stack, rs.stack_len - 1, .write,
           U256_MOD - 1 - mem rs.context .Stack (rs.stack_len - 1) % U256_MOD⟩).push_cpu) := by
  unfold generate_not
  rw [stack_pop1_ok rs mem h]
  simp only [stack_push_log_and_fill, NUM_GP_CHANNELS]
  have h1 : rs.stack_len - 1 + 1 = rs.stack_len := by omega
  simp [h1]

/-- Explicit successful run of `generate_dup`. -/
theorem dup_spec (n : Nat) (rs : RegistersState) (mem : MemoryState)
    (tr : Traces) (h : 1 + n ≤ rs.stack_len) :
    generate_dup n rs mem tr =
      some (.ok { rs with stack_len := rs.stack_len + 1 },
        ((tr.push_memory
            ⟨0, rs.context, .Stack, rs.stack_len - (1 + n), .read,
             mem rs.context .Stack (rs.stack_len - (1 + n))⟩).push_memory
          ⟨3, rs.context, .Stack, rs.stack_len, .write,
           mem rs.context .Stack (rs.stack_len - (1 + n))⟩).push_cpu) := by
  unfold generate_dup
  rw [if_neg (by omega)]
  simp [mem_read_gp_with_log_and_fill, stack_push_log_and_fill, NUM_GP_CHANNELS]

/-- Explicit successful run of `generate_swap`. -/
theorem swap_spec (n : Nat) (rs : RegistersState) (mem : MemoryState)
    (tr : Traces) (h : 2 + n ≤ rs.stack_len) :
    generate_swap n rs mem tr =
      some (.ok rs,
        ((((tr.push_memory
            ⟨0, rs.context, .Stack, rs.stack_len - 1, .read,
             mem rs.context .Stack (rs.stack_len - 1)⟩).push_memory
          ⟨1, rs.context, .Stack, rs.stack_len - (2 + n), .read,
           mem rs.context .Stack (rs.stack_len - (2 + n))⟩).push_memory
          ⟨2, rs.context, .Stack, rs.stack_len - (2 + n), .write,
           mem rs.context .Stack (rs.stack_len - 1)⟩).push_memory
          ⟨3, rs.context, .Stack, rs.stack_len - 1, .write,
           mem rs.context .Stack (rs.stack_len - (2 + n))⟩).push_cpu) := by
  unfold generate_swap
  rw [if_neg (by omega)]
  rw [stack_pop1_ok rs mem (by omega)]
  simp only [mem_read_gp_with_log_and_fill, mem_write_gp_log_and_fill,
    stack_push_log_and_fill, NUM_GP_CHANNELS]
  have h1 : rs.stack_len - 1 + 1 = rs.stack_len := by omega
  simp [h1]

/-- Explicit successful run of `generate_binary_logic_op`. -/
theorem binary_logic_spec (op : BinaryLogicOp) (rs : RegistersState)
    (mem : MemoryState) (tr : Traces) (h : 2 ≤ rs.stack_len) :
    generate_binary_logic_op op rs mem tr =
      some (.ok { rs with stack_len := rs.stack_len - 1 },
        ((((tr.push_logic
            (make_logic_row op (mem rs.context .Stack (rs.stack_len - 1))
              (mem rs.context .Stack (rs.stack_len - 2))
              (op.result (mem rs.context .Stack (rs.stack_len - 1))
                (mem rs.context .Stack (rs.stack_len - 2))))).push_memory
          ⟨0, rs.context, .Stack, rs.stack_len - 1, .read,
           mem rs.context .Stack (rs.stack_len - 1)⟩).push_memory
          ⟨1, rs.context, .Stack, rs.stack_len - 2, .read,
           mem rs.context .Stack (rs.stack_len - 2)⟩).push_memory
          ⟨3, rs.context, .Stack, rs.stack_len - 2, .write,
           op.result (mem rs.context .Stack (rs.stack_len - 1))
             (mem rs.context .Stack (rs.stack_len - 2))⟩).push_cpu) := by
  unfold generate_binary_logic_op
  rw [stack_pop2_ok rs mem h]
  simp only [stack_push_log_and_fill, NUM_GP_CHANNELS]
  have h1 : rs.stack_len - 1 - 1 = rs.stack_len - 2 := by omega
  have h2 : rs.stack_len - 2 + 1 = rs.stack_len - 1 := by omega
  have h3 : rs.stack_len - 1 - 0 = rs.stack_len - 1 := by omega
  simp [h1, h2, h3]

/-- Explicit successful run of `generate_syscall`, under the environment
invariants that the jump-table slot fits in a `u32` address and that the
assembled handler address fits in a `u32`. -/
theorem syscall_spec (jumptable_addr opcode : Nat) (rs : RegistersState)
    (mem : MemoryState) (tr : Traces)
    (hj : jumptable_addr + opcode + 2 < 2 ^ 32)
    (hsum : mem 0 .Code (jumptable_addr + opcode) * 2 ^ 16 % U256_MOD
        + mem 0 .Code (jumptable_addr + opcode + 1) * 2 ^ 8 % U256_MOD
        + mem 0 .Code (jumptable_addr + opcode + 2) < 2 ^ 32) :
    generate_syscall jumptable_addr opcode rs mem tr =
      some (.ok ⟨rs.context, true,
          mem 0 .Code (jumptable_addr + opcode) * 2 ^ 16 % U256_MOD
            + mem 0 .Code (jumptable_addr + opcode + 1) * 2 ^ 8 % U256_MOD
            + mem 0 .Code (jumptable_addr + opcode + 2),
          rs.stack_len + 1⟩,
        ((((tr.push_memory
            ⟨0, 0, .Code, jumptable_addr + opcode, .read,
             mem 0 .Code (jumptable_addr + opcode)⟩).push_memory
          ⟨1, 0, .Code, jumptable_addr + opcode + 1, .read,
           mem 0 .Code (jumptable_addr + opcode + 1)⟩).push_memory
          ⟨2, 0, .Code, jumptable_addr + opcode + 2, .read,
           mem 0 .Code (jumptable_addr + opcode + 2)⟩).push_memory
          ⟨3, rs.context, .Stack, rs.stack_len, .write,
           rs.program_counter % 2 ^ 32
             + (if rs.is_kernel then 1 else 0) * 2 ^ 32⟩).push_cpu) := by
  unfold generate_syscall
  have e0 : (jumptable_addr + opcode) % 2 ^ 32 = jumptable_addr + opcode :=
    Nat.mod_eq_of_lt (by omega)
  simp only [mem_read_gp_with_log_and_fill, e0]
  have e1 : (jumptable_addr + opcode + 1) % 2 ^ 32 = jumptable_addr + opcode + 1 :=
    Nat.mod_eq_of_lt (by omega)
  have e2 : (jumptable_addr + opcode + 2) % 2 ^ 32 = jumptable_addr + opcode + 2 :=
    Nat.mod_eq_of_lt (by omega)
  simp only [e1, e2]
  rw [if_pos hsum]
  simp [stack_push_log_and_fill, NUM_GP_CHANNELS]

/-- Explicit successful run of `generate_exit_kernel` on a popped word
below `2^32`: the bits the source inspects for the kernel flag (bits
96..128) are zero, so the flag decodes to `false`. -/
theorem exit_kernel_spec_small (rs : RegistersState) (mem : MemoryState)
    (tr : Traces) (h : 1 ≤ rs.stack_len)
    (hw : mem rs.context .Stack (rs.stack_len - 1) < 2 ^ 32) :
    generate_exit_kernel rs mem tr =
      some (.ok ⟨rs.context, false,
          mem rs.context .Stack (rs.stack_len - 1), rs.stack_len - 1⟩,
        (tr.push_memory
          ⟨0, rs.context, .Stack, rs.stack_len - 1, .read,
           mem rs.context .Stack (rs.stack_len - 1)⟩).push_cpu) := by
  unfold generate_exit_kernel
  rw [stack_pop1_ok rs mem h]
  have hdiv : mem rs.context .Stack (rs.stack_len - 1) / 2 ^ 64 = 0 :=
    Nat.div_eq_of_lt (lt_trans hw (by norm_num))
  have hmod : mem rs.context .Stack (rs.stack_len - 1) % 2 ^ 64
      = mem rs.context .Stack (rs.stack_len - 1) :=
    Nat.mod_eq_of_lt (lt_trans hw (by norm_num))
  simp only [hdiv, hmod]
  rw [if_pos (by simp)]
  have hw' : mem rs.context .Stack (rs.stack_len - 1) % 4294967296
      = mem rs.context .Stack (rs.stack_len - 1) := Nat.mod_eq_of_lt (by omega)
  simp [hw']

/-- Applying a read-read-write-write log list to memory: the two reads
are non-mutating and the two writes layer, the later one outermost. -/
theorem applyOps_two_writes (m : MemoryState) (l0 l1 : MemoryOp)
    (h0 : l0.kind = .read) (h1 : l1.kind = .read)
    (ch2 ch3 ctx p1 p2 v1 v2 : Nat) (sg : Segment) :
    m.applyOps [l0, l1, ⟨ch2, ctx, sg, p1, .write, v1⟩,
        ⟨ch3, ctx, sg, p2, .write, v2⟩]
      = fun c s o => if c = ctx ∧ s = sg ∧ o = p2 then v2
          else if c = ctx ∧ s = sg ∧ o = p1 then v1 else m c s o := by
  obtain ⟨a0, b0, c0, d0, k0, e0⟩ := l0
  obtain ⟨a1, b1, c1, d1, k1, e1⟩ := l1
  simp only at h0 h1
  subst h0; subst h1
  rfl

end SpecLemmas

section Claims

/-- C1 (code bug): trace-generation layer evaluated at the return-info
word `2^32 + 7`, exactly the word `generate_syscall` pushes for a
pre-syscall program counter of 7 in kernel mode (`is_kernel = true`, so
bit 32 of the word is 1).  The claim — and the spec — require the decode
to restore `program_counter = 7` and `is_kernel = true`, but the source
decodes the flag from `kexit_info_u64[1] >> 32` (bits 96..128 of the
word) instead of bit 32, so the run returns `is_kernel = false`. -/
theorem exit_kernel_wrong_limb_on_syscall_word :
    generate_exit_kernel ⟨0, true, 100, 1⟩ (fun _ _ _ => 2 ^ 32 + 7)
        emptyTraces
      = some (.ok ⟨0, false, 7, 0⟩,
          ⟨[⟨0, 0, .Stack, 0, .read, 2 ^ 32 + 7⟩], [], 1⟩) ∧
    (2 ^ 32 + 7) % 2 ^ 32 = 7 ∧ (2 ^ 32 + 7) / 2 ^ 32 % 2 = 1 := by
  refine ⟨rfl, by norm_num, by norm_num⟩

/-- C5 (code bug): the popped word `2^33` has flag bits (bits 32 onward)
equal to 2, which per the claim — and the spec — must trip the fatal
`assert!`; but the source checks bits 96..128 (which are 0 here), so the
handler returns an ordinary `Ok` with `is_kernel = false` instead of
aborting. -/
theorem exit_kernel_missing_assert_on_bit33 :
    generate_exit_kernel ⟨0, false, 5, 1⟩ (fun _ _ _ => 2 ^ 33) emptyTraces
      = some (.ok ⟨0, false, 0, 0⟩,
          ⟨[⟨0, 0, .Stack, 0, .read, 2 ^ 33⟩], [], 1⟩) ∧
    2 ^ 33 / 2 ^ 32 = 2 := by
  refine ⟨rfl, by norm_num⟩

/-- C9: `generate_iszero` pushes 1 exactly when the popped operand is 0,
and `generate_eq` pushes 1 exactly when the two popped operands are
equal; in both cases the pushed word is the value of the single write
log. -/
theorem iszero_eq_push_indicator (rs : RegistersState) (mem : MemoryState)
    (tr : Traces) :
    (1 ≤ rs.stack_len →
      generate_iszero rs mem tr =
        some (.ok rs,
          ((tr.push_memory
              ⟨0, rs.context, .Stack, rs.stack_len - 1, .read,
               mem rs.context .Stack (rs.stack_len - 1)⟩).push_memory
            ⟨3, rs.context, .Stack, rs.stack_len - 1, .write,
             if mem rs.context .Stack (rs.stack_len - 1) = 0 then 1
             else 0⟩).push_cpu)) ∧
    (2 ≤ rs.stack_len →
      generate_eq rs mem tr =
        some (.ok { rs with stack_len := rs.stack_len - 1 },
          (((tr.push_memory
              ⟨0, rs.context, .Stack, rs.stack_len - 1, .read,
               mem rs.context .Stack (rs.stack_len - 1)⟩).push_memory
            ⟨1, rs.context, .Stack, rs.stack_len - 2, .read,
             mem rs.context .Stack (rs.stack_len - 2)⟩).push_memory
            ⟨3, rs.context, .Stack, rs.stack_len - 2, .write,
             if mem rs.context .Stack (rs.stack_len - 1)
                = mem rs.context .Stack (rs.stack_len - 2) then 1
             else 0⟩).push_cpu)) :=
  ⟨fun h => iszero_spec rs mem tr h, fun h => eq_spec rs mem tr h⟩

/-- Witness for C9: on the stack `[4, 0]` (0 on top), `Iszero` pushes 1
(the top is zero) and `Eq` pushes 0 (the operands 0 and 4 differ). -/
theorem iszero_eq_push_indicator_witness :
    generate_iszero ⟨0, false, 9, 2⟩ (fun _ _ o => if o = 0 then 4 else 0)
        emptyTraces
      = some (.ok ⟨0, false, 9, 2⟩,
          ⟨[⟨0, 0, .Stack, 1, .read, 0⟩, ⟨3, 0, .Stack, 1, .write, 1⟩],
           [], 1⟩) ∧
    generate_eq ⟨0, false, 9, 2⟩ (fun _ _ o => if o = 0 then 4 else 0)
        emptyTraces
      = some (.ok ⟨0, false, 9, 1⟩,
          ⟨[⟨0, 0, .Stack, 1, .read, 0⟩, ⟨1, 0, .Stack, 0, .read, 4⟩,
            ⟨3, 0, .Stack, 0, .write, 0⟩], [], 1⟩) :=
  ⟨(iszero_eq_push_indicator ⟨0, false, 9, 2⟩
      (fun _ _ o => if o = 0 then 4 else 0) emptyTraces).1 (by decide),
   (iszero_eq_push_indicator ⟨0, false, 9, 2⟩
      (fun _ _ o => if o = 0 then 4 else 0) emptyTraces).2 (by decide)⟩

/-- C3: with the jump-table slot in `u32` range, the program counter in
`u32` range (both type invariants of the source) and byte-valued code
cells, `generate_syscall` performs exactly the three code reads at
`base+op`, `base+op+1`, `base+op+2` and the one stack push visible in the
emitted logs, sets `is_kernel := true`, sets the program counter to the
big-endian assembly of the three bytes, and the pushed word carries the
pre-syscall program counter in its low 32 bits and the pre-syscall kernel
flag at bit 32. -/
theorem syscall_reads_and_packed_return (jumptable_addr opcode : Nat)
    (rs : RegistersState) (mem : MemoryState) (tr : Traces)
    (hj : jumptable_addr + opcode + 2 < 2 ^ 32)
    (hpc : rs.program_counter < 2 ^ 32)
    (hb0 : mem 0 .Code (jumptable_addr + opcode) < 2 ^ 8)
    (hb1 : mem 0 .Code (jumptable_addr + opcode + 1) < 2 ^ 8)
    (hb2 : mem 0 .Code (jumptable_addr + opcode + 2) < 2 ^ 8) :
    generate_syscall jumptable_addr opcode rs mem tr =
      some (.ok ⟨rs.context, true,
          mem 0 .Code (jumptable_addr + opcode) * 2 ^ 16
            + mem 0 .Code (jumptable_addr + opcode + 1) * 2 ^ 8
            + mem 0 .Code (jumptable_addr + opcode + 2),
          rs.stack_len + 1⟩,
        ((((tr.push_memory
            ⟨0, 0, .Code, jumptable_addr + opcode, .read,
             mem 0 .Code (jumptable_addr + opcode)⟩).push_memory
          ⟨1, 0, .Code, jumptable_addr + opcode + 1, .read,
           mem 0 .Code (jumptable_addr + opcode + 1)⟩).push_memory
          ⟨2, 0, .Code, jumptable_addr + opcode + 2, .read,
           mem 0 .Code (jumptable_addr + opcode + 2)⟩).push_memory
          ⟨3, rs.context, .Stack, rs.stack_len, .write,
           rs.program_counter
             + (if rs.is_kernel then 1 else 0) * 2 ^ 32⟩).push_cpu) ∧
    (rs.program_counter + (if rs.is_kernel then 1 else 0) * 2 ^ 32) % 2 ^ 32
      = rs.program_counter ∧
    (rs.program_counter + (if rs.is_kernel then 1 else 0) * 2 ^ 32) / 2 ^ 32
      = (if rs.is_kernel then 1 else 0) := by
  have hm0 : mem 0 .Code (jumptable_addr + opcode) * 2 ^ 16 % U256_MOD
      = mem 0 .Code (jumptable_addr + opcode) * 2 ^ 16 := by
    apply Nat.mod_eq_of_lt
    have : mem 0 .Code (jumptable_addr + opcode) * 2 ^ 16 < 2 ^ 24 := by omega
    exact lt_trans this (by unfold U256_MOD; norm_num)
  have hm1 : mem 0 .Code (jumptable_addr + opcode + 1) * 2 ^ 8 % U256_MOD
      = mem 0 .Code (jumptable_addr + opcode + 1) * 2 ^ 8 := by
    apply Nat.mod_eq_of_lt
    have : mem 0 .Code (jumptable_addr + opcode + 1) * 2 ^ 8 < 2 ^ 16 := by omega
    exact lt_trans this (by unfold U256_MOD; norm_num)
  have hs := syscall_spec jumptable_addr opcode rs mem tr hj
    (by rw [hm0, hm1]; omega)
  rw [hm0, hm1] at hs
  have hpcm : rs.program_counter % 2 ^ 32 = rs.program_counter :=
    Nat.mod_eq_of_lt hpc
  rw [hpcm] at hs
  refine ⟨hs, ?_, ?_⟩ <;> cases rs.is_kernel <;> simp <;> omega

/-- Witness for C3: jump table at base 80, opcode 2, code bytes
(1, 2, 3) at slots 82..84, pre-state in user mode at program counter 77;
the new program counter is `0x010203 = 66051` and the pushed word is 77
(flag bit 32 clear). -/
theorem syscall_reads_and_packed_return_witness :
    generate_syscall 80 2 ⟨6, false, 77, 1⟩
        (fun _ s o => if s = .Code then o - 81 else 0) emptyTraces =
      some (.ok ⟨6, true, 66051, 2⟩,
        ⟨[⟨0, 0, .Code, 82, .read, 1⟩, ⟨1, 0, .Code, 83, .read, 2⟩,
          ⟨2, 0, .Code, 84, .read, 3⟩, ⟨3, 6, .Stack, 1, .write, 77⟩],
         [], 1⟩) ∧
    (77 + (if false then 1 else 0) * 2 ^ 32) % 2 ^ 32 = 77 ∧
    (77 + (if false then 1 else 0) * 2 ^ 32) / 2 ^ 32
      = (if false then 1 else 0) :=
  (syscall_reads_and_packed_return 80 2 ⟨6, false, 77, 1⟩
    (fun _ s o => if s = .Code then o - 81 else 0) emptyTraces
    (by norm_num) (by norm_num) (by decide) (by decide) (by decide))

/-- C10: the three jump-table reads of `generate_syscall` address context
0 of the code segment for every register state — in particular the
current `registers_state.context` (arbitrary here) never enters the
lookup addresses. -/
theorem syscall_jumptable_reads_context_zero (jumptable_addr opcode : Nat)
    (rs : RegistersState) (mem : MemoryState)
    (hj : jumptable_addr + opcode + 2 < 2 ^ 32)
    (hsum : mem 0 .Code (jumptable_addr + opcode) * 2 ^ 16 % U256_MOD
        + mem 0 .Code (jumptable_addr + opcode + 1) * 2 ^ 8 % U256_MOD
        + mem 0 .Code (jumptable_addr + opcode + 2) < 2 ^ 32) :
    Option.map
        (fun p => ((p.2.memory_ops.filter fun o => decide (o.kind = .read)).map
          fun o => (o.context, o.segment)))
        (generate_syscall jumptable_addr opcode rs mem emptyTraces)
      = some [(0, Segment.Code), (0, Segment.Code), (0, Segment.Code)] := by
  rw [syscall_spec jumptable_addr opcode rs mem emptyTraces hj hsum]
  rfl

/-- Witness for C10: a pre-state in context 9 still reads the jump table
in context 0. -/
theorem syscall_jumptable_reads_context_zero_witness :
    Option.map
        (fun p => ((p.2.memory_ops.filter fun o => decide (o.kind = .read)).map
          fun o => (o.context, o.segment)))
        (generate_syscall 80 2 ⟨9, true, 5, 3⟩ (fun _ _ _ => 0) emptyTraces)
      = some [(0, Segment.Code), (0, Segment.Code), (0, Segment.Code)] :=
  syscall_jumptable_reads_context_zero 80 2 ⟨9, true, 5, 3⟩ (fun _ _ _ => 0)
    (by norm_num) (by decide)

/-- C4 counterexample: on the stack `[10, 20]` (20 on top, `stack_len =
2`), `generate_dup 0` pushes 20 — the value at offset `stack_len - (n+1)
= 1` — whereas the claim's source offset `stack_len - (n+2) = 0` holds
10; the claim as stated is false at this input. -/
theorem dup_offset_counterexample :
    generate_dup 0 ⟨0, false, 0, 2⟩ (fun _ _ o => if o = 0 then 10 else 20)
        emptyTraces
      = some (.ok ⟨0, false, 0, 3⟩,
          ⟨[⟨0, 0, .Stack, 1, .read, 20⟩, ⟨3, 0, .Stack, 2, .write, 20⟩],
           [], 1⟩) ∧
    (fun _ _ o => if o = 0 then (10 : Nat) else 20) 0 Segment.Stack
        (2 - (0 + 2)) = 10 ∧
    (20 : Nat) ≠ 10 :=
  ⟨rfl, rfl, by decide⟩

/-- C4 (amended): `generate_dup n` fails with `StackUnderflow` (leaving
the trace sink untouched) exactly when `stack_len < 1 + n`; otherwise it
leaves every slot below the new top unchanged (its only write log is at
offset `stack_len`, the new top), increases `stack_len` by exactly 1, and
the new top equals the value that was at offset `stack_len - (n + 1)` —
depth `n` below the top — before the call. -/
theorem dup_pushes_copy_from_depth (n : Nat) (rs : RegistersState)
    (mem : MemoryState) (tr : Traces) :
    (rs.stack_len < 1 + n →
      generate_dup n rs mem tr = some (.error .StackUnderflow, tr)) ∧
    (1 + n ≤ rs.stack_len →
      generate_dup n rs mem tr =
        some (.ok { rs with stack_len := rs.stack_len + 1 },
          ((tr.push_memory
              ⟨0, rs.context, .Stack, rs.stack_len - (1 + n), .read,
               mem rs.context .Stack (rs.stack_len - (1 + n))⟩).push_memory
            ⟨3, rs.context, .Stack, rs.stack_len, .write,
             mem rs.context .Stack (rs.stack_len - (1 + n))⟩).push_cpu)) :=
  ⟨fun h => by unfold generate_dup; rw [if_pos h],
   fun h => dup_spec n rs mem tr h⟩

/-- Witness for C4: `Dup(1)` on the stack `[10, 20]` copies the value 10
at offset `stack_len - 2 = 0` to the top, and `Dup(1)` on a singleton
stack underflows. -/
theorem dup_pushes_copy_from_depth_witness :
    generate_dup 1 ⟨0, false, 0, 2⟩ (fun _ _ o => if o = 0 then 10 else 20)
        emptyTraces
      = some (.ok ⟨0, false, 0, 3⟩,
          ⟨[⟨0, 0, .Stack, 0, .read, 10⟩, ⟨3, 0, .Stack, 2, .write, 10⟩],
           [], 1⟩) ∧
    generate_dup 1 ⟨0, false, 0, 1⟩ (fun _ _ o => if o = 0 then 10 else 20)
        emptyTraces
      = some (.error .StackUnderflow, emptyTraces) :=
  ⟨(dup_pushes_copy_from_depth 1 ⟨0, false, 0, 2⟩
      (fun _ _ o => if o = 0 then 10 else 20) emptyTraces).2 (by decide),
   (dup_pushes_copy_from_depth 1 ⟨0, false, 0, 1⟩
      (fun _ _ o => if o = 0 then 10 else 20) emptyTraces).1 (by decide)⟩

/-- C6: every handler that can underflow performs its bounds check before
any state mutation or log emission: when the required depth exceeds the
stack height, the handler returns `StackUnderflow` with the trace sink
exactly as it received it (and, the state being threaded by value, the
caller's registers — in particular `stack_len` — are untouched).
`generate_dup n` requires depth `1 + n`, `generate_swap n` requires
`2 + n`, the two-operand handlers require 2, the one-operand handlers
require 1. -/
theorem underflow_checked_before_any_effect (n : Nat) (bop : BinaryLogicOp)
    (rs : RegistersState) (mem : MemoryState) (tr : Traces) :
    (rs.stack_len < 1 + n →
      generate_dup n rs mem tr = some (.error .StackUnderflow, tr)) ∧
    (rs.stack_len < 2 + n →
      generate_swap n rs mem tr = some (.error .StackUnderflow, tr)) ∧
    (rs.stack_len < 2 →
      generate_binary_logic_op bop rs mem tr
        = some (.error .StackUnderflow, tr)) ∧
    (rs.stack_len < 1 →
      generate_not rs mem tr = some (.error .StackUnderflow, tr)) ∧
    (rs.stack_len < 1 →
      generate_iszero rs mem tr = some (.error .StackUnderflow, tr)) ∧
    (rs.stack_len < 2 →
      generate_eq rs mem tr = some (.error .StackUnderflow, tr)) ∧
    (rs.stack_len < 1 →
      generate_exit_kernel rs mem tr = some (.error .StackUnderflow, tr)) := by
  refine ⟨fun h => ?_, fun h => ?_, fun h => ?_, fun h => ?_, fun h => ?_,
    fun h => ?_, fun h => ?_⟩
  · unfold generate_dup; rw [if_pos h]
  · unfold generate_swap; rw [if_pos h]
  · unfold generate_binary_logic_op stack_pop_with_log_and_fill
    rw [if_pos h]
  · unfold generate_not stack_pop_with_log_and_fill; rw [if_pos h]
  · unfold generate_iszero stack_pop_with_log_and_fill; rw [if_pos h]
  · unfold generate_eq stack_pop_with_log_and_fill; rw [if_pos h]
  · unfold generate_exit_kernel stack_pop_with_log_and_fill; rw [if_pos h]

/-- Witness for C6: on the empty stack every handler underflows and
leaves the (empty) trace sink untouched. -/
theorem underflow_checked_before_any_effect_witness :
    generate_dup 0 ⟨0, false, 0, 0⟩ (fun _ _ _ => 0) emptyTraces
      = some (.error .StackUnderflow, emptyTraces) ∧
    generate_swap 0 ⟨0, false, 0, 0⟩ (fun _ _ _ => 0) emptyTraces
      = some (.error .StackUnderflow, emptyTraces) ∧
    generate_binary_logic_op .And ⟨0, false, 0, 0⟩ (fun _ _ _ => 0)
        emptyTraces
      = some (.error .StackUnderflow, emptyTraces) ∧
    generate_not ⟨0, false, 0, 0⟩ (fun _ _ _ => 0) emptyTraces
      = some (.error .StackUnderflow, emptyTraces) ∧
    generate_iszero ⟨0, false, 0, 0⟩ (fun _ _ _ => 0) emptyTraces
      = some (.error .StackUnderflow, emptyTraces) ∧
    generate_eq ⟨0, false, 0, 0⟩ (fun _ _ _ => 0) emptyTraces
      = some (.error .StackUnderflow, emptyTraces) ∧
    generate_exit_kernel ⟨0, false, 0, 0⟩ (fun _ _ _ => 0) emptyTraces
      = some (.error .StackUnderflow, emptyTraces) := by
  have c := underflow_checked_before_any_effect 0 .And ⟨0, false, 0, 0⟩
    (fun _ _ _ => 0) emptyTraces
  exact ⟨c.1 (by decide), c.2.1 (by decide), c.2.2.1 (by decide),
    c.2.2.2.1 (by decide), c.2.2.2.2.1 (by decide),
    c.2.2.2.2.2.1 (by decide), c.2.2.2.2.2.2 (by decide)⟩

/-- C7: for every `n` and stack of height at least `n + 2`,
`generate_swap n` returns the registers unchanged (in particular
`stack_len` is unchanged), its write logs exchange the top slot
(offset `stack_len - 1`) with the slot at offset `stack_len - (2 + n)`
while touching no other address, and it is its own inverse: running
`Swap(n)` again after applying the first step's writes to memory, and
applying the second step's writes, restores the original memory at every
address. -/
theorem swap_exchanges_and_involution (n : Nat) (rs : RegistersState)
    (mem : MemoryState) (h : 2 + n ≤ rs.stack_len) :
    ∃ t1 t2,
      generate_swap n rs mem emptyTraces = some (.ok rs, t1) ∧
      (mem.applyOps t1.memory_ops) rs.context .Stack (rs.stack_len - 1)
        = mem rs.context .Stack (rs.stack_len - (2 + n)) ∧
      (mem.applyOps t1.memory_ops) rs.context .Stack (rs.stack_len - (2 + n))
        = mem rs.context .Stack (rs.stack_len - 1) ∧
      (∀ c s o, (c ≠ rs.context ∨ s ≠ Segment.Stack ∨
          (o ≠ rs.stack_len - 1 ∧ o ≠ rs.stack_len - (2 + n))) →
        (mem.applyOps t1.memory_ops) c s o = mem c s o) ∧
      generate_swap n rs (mem.applyOps t1.memory_ops) emptyTraces
        = some (.ok rs, t2) ∧
      (∀ c s o,
        ((mem.applyOps t1.memory_ops).applyOps t2.memory_ops) c s o
          = mem c s o) := by
  have hoth : rs.stack_len - (2 + n) ≠ rs.stack_len - 1 := by omega
  have hm1 : mem.applyOps
      (((((emptyTraces.push_memory
        ⟨0, rs.context, .Stack, rs.stack_len - 1, .read,
         mem rs.context .Stack (rs.stack_len - 1)⟩).push_memory
        ⟨1, rs.context, .Stack, rs.stack_len - (2 + n), .read,
         mem rs.context .Stack (rs.stack_len - (2 + n))⟩).push_memory
        ⟨2, rs.context, .Stack, rs.stack_len - (2 + n), .write,
         mem rs.context .Stack (rs.stack_len - 1)⟩).push_memory
        ⟨3, rs.context, .Stack, rs.stack_len - 1, .write,
         mem rs.context .Stack (rs.stack_len - (2 + n))⟩).push_cpu).memory_ops
      = fun c s o =>
        if c = rs.context ∧ s = Segment.Stack ∧ o = rs.stack_len - 1 then
          mem rs.context .Stack (rs.stack_len - (2 + n))
        else if c = rs.context ∧ s = Segment.Stack
            ∧ o = rs.stack_len - (2 + n) then
          mem rs.context .Stack (rs.stack_len - 1)
        else mem c s o := rfl
  have e_top :
      (fun c s o =>
        if c = rs.context ∧ s = Segment.Stack ∧ o = rs.stack_len - 1 then
          mem rs.context .Stack (rs.stack_len - (2 + n))
        else if c = rs.context ∧ s = Segment.Stack
            ∧ o = rs.stack_len - (2 + n) then
          mem rs.context .Stack (rs.stack_len - 1)
        else mem c s o)
        rs.context Segment.Stack (rs.stack_len - 1)
      = mem rs.context .Stack (rs.stack_len - (2 + n)) := by
    simp
  have e_oth :
      (fun c s o =>
        if c = rs.context ∧ s = Segment.Stack ∧ o = rs.stack_len - 1 then
          mem rs.context .Stack (rs.stack_len - (2 + n))
        else if c = rs.context ∧ s = Segment.Stack
            ∧ o = rs.stack_len - (2 + n) then
          mem rs.context .Stack (rs.stack_len - 1)
        else mem c s o)
        rs.context Segment.Stack (rs.stack_len - (2 + n))
      = mem rs.context .Stack (rs.stack_len - 1) := by
    simp [hoth]
  refine ⟨_, _, swap_spec n rs mem emptyTraces h, ?_, ?_, ?_,
    swap_spec n rs _ emptyTraces h, ?_⟩
  · rw [hm1]; exact e_top
  · rw [hm1]; exact e_oth
  · intro c s o hcso
    rw [hm1]
    simp only []
    split_ifs with h1 h2
    · rcases h1 with ⟨hc, hsg, ho⟩
      rcases hcso with hc2 | hs2 | ⟨ho1, ho2⟩
      · exact absurd hc hc2
      · exact absurd hsg hs2
      · exact absurd ho ho1
    · rcases h2 with ⟨hc, hsg, ho⟩
      rcases hcso with hc2 | hs2 | ⟨ho1, ho2⟩
      · exact absurd hc hc2
      · exact absurd hsg hs2
      · exact absurd ho ho2
    · rfl
  · intro c s o
    rw [hm1, e_top, e_oth]
    simp only [MemoryState.applyOps, Traces.push_memory, Traces.push_cpu,
      emptyTraces, List.nil_append, List.cons_append, List.foldl_cons,
      List.foldl_nil]
    split_ifs with h1 h2
    · rcases h1 with ⟨hc, hsg, ho⟩
      subst hc; subst hsg; subst ho
      rfl
    · rcases h2 with ⟨hc, hsg, ho⟩
      subst hc; subst hsg; subst ho
      rfl
    · rfl

/-- Witness for C7: `Swap(0)` on the stack `[10, 20]` exchanges offsets
0 and 1, and a second `Swap(0)` restores the original memory. -/
theorem swap_exchanges_and_involution_witness :
    2 + 0 ≤ 2 ∧
    ∃ t1 t2,
      generate_swap 0 ⟨0, false, 0, 2⟩ (fun _ _ o => if o = 0 then 10 else 20)
          emptyTraces = some (.ok ⟨0, false, 0, 2⟩, t1) ∧
      MemoryState.applyOps (fun _ _ o => if o = 0 then (10 : Nat) else 20)
          t1.memory_ops 0 .Stack 1
        = (fun _ _ o => if o = 0 then (10 : Nat) else 20) 0 Segment.Stack 0 ∧
      MemoryState.applyOps (fun _ _ o => if o = 0 then (10 : Nat) else 20)
          t1.memory_ops 0 .Stack 0
        = (fun _ _ o => if o = 0 then (10 : Nat) else 20) 0 Segment.Stack 1 ∧
      (∀ c s o, (c ≠ 0 ∨ s ≠ Segment.Stack ∨ (o ≠ 1 ∧ o ≠ 0)) →
        MemoryState.applyOps (fun _ _ o => if o = 0 then (10 : Nat) else 20)
            t1.memory_ops c s o
          = (fun _ _ o => if o = 0 then (10 : Nat) else 20) c s o) ∧
      generate_swap 0 ⟨0, false, 0, 2⟩
          (MemoryState.applyOps (fun _ _ o => if o = 0 then (10 : Nat) else 20)
            t1.memory_ops) emptyTraces
        = some (.ok ⟨0, false, 0, 2⟩, t2) ∧
      (∀ c s o,
        MemoryState.applyOps
            (MemoryState.applyOps
              (fun _ _ o => if o = 0 then (10 : Nat) else 20) t1.memory_ops)
            t2.memory_ops c s o
          = (fun _ _ o => if o = 0 then (10 : Nat) else 20) c s o) :=
  ⟨by decide,
   swap_exchanges_and_involution 0 ⟨0, false, 0, 2⟩
     (fun _ _ o => if o = 0 then 10 else 20) (by decide)⟩

/-- C8: `generate_binary_logic_op` pushes the exact bitwise AND/OR/XOR
of the two popped 256-bit operands (bit-by-bit over all positions) and
emits exactly one logic sub-table row whose selector is one-hot for the
given operation, whose `INPUT0`/`INPUT1` regions hold the individual bits
of the operands (one field element per bit), and whose `RESULT` region
holds the result as the low and high 32-bit halves of each of its four
64-bit limbs. -/
theorem binary_logic_row_and_push (bop : BinaryLogicOp)
    (rs : RegistersState) (mem : MemoryState) (tr : Traces)
    (h : 2 ≤ rs.stack_len)
    (_ha : mem rs.context .Stack (rs.stack_len - 1) < U256_MOD)
    (_hb : mem rs.context .Stack (rs.stack_len - 2) < U256_MOD) :
    ∃ row t,
      generate_binary_logic_op bop rs mem tr =
        some (.ok { rs with stack_len := rs.stack_len - 1 }, t) ∧
      t.logic_rows = tr.logic_rows ++ [row] ∧
      t.memory_ops = tr.memory_ops ++
        [⟨0, rs.context, .Stack, rs.stack_len - 1, .read,
          mem rs.context .Stack (rs.stack_len - 1)⟩,
         ⟨1, rs.context, .Stack, rs.stack_len - 2, .read,
          mem rs.context .Stack (rs.stack_len - 2)⟩,
         ⟨3, rs.context, .Stack, rs.stack_len - 2, .write,
          bop.result (mem rs.context .Stack (rs.stack_len - 1))
            (mem rs.context .Stack (rs.stack_len - 2))⟩] ∧
      (∀ i, (bop.result (mem rs.context .Stack (rs.stack_len - 1))
            (mem rs.context .Stack (rs.stack_len - 2))).testBit i
          = match bop with
            | .And => (mem rs.context .Stack (rs.stack_len - 1)).testBit i
                && (mem rs.context .Stack (rs.stack_len - 2)).testBit i
            | .Or => (mem rs.context .Stack (rs.stack_len - 1)).testBit i
                || (mem rs.context .Stack (rs.stack_len - 2)).testBit i
            | .Xor => ((mem rs.context .Stack (rs.stack_len - 1)).testBit i)
                ^^ ((mem rs.context .Stack (rs.stack_len - 2)).testBit i)) ∧
      row.is_and = (if bop = .And then 1 else 0) ∧
      row.is_or = (if bop = .Or then 1 else 0) ∧
      row.is_xor = (if bop = .Xor then 1 else 0) ∧
      (∀ i < 256, row.input0 i =
        if (mem rs.context .Stack (rs.stack_len - 1)).testBit i then 1
        else 0) ∧
      (∀ i < 256, row.input1 i =
        if (mem rs.context .Stack (rs.stack_len - 2)).testBit i then 1
        else 0) ∧
      (∀ i < 4,
        row.result_cols (2 * i) =
          (bop.result (mem rs.context .Stack (rs.stack_len - 1))
            (mem rs.context .Stack (rs.stack_len - 2)))
            / 2 ^ (64 * i) % 2 ^ 64 % 2 ^ 32 ∧
        row.result_cols (2 * i + 1) =
          (bop.result (mem rs.context .Stack (rs.stack_len - 1))
            (mem rs.context .Stack (rs.stack_len - 2)))
            / 2 ^ (64 * i) % 2 ^ 64 / 2 ^ 32) := by
  refine ⟨_, _, binary_logic_spec bop rs mem tr h, rfl, ?_, ?_, rfl, rfl, rfl,
    ?_, ?_, ?_⟩
  · simp [Traces.push_logic, Traces.push_memory, Traces.push_cpu]
  · intro i
    cases bop <;> simp [BinaryLogicOp.result]
  · intro i hi
    simp only [make_logic_row]
    rw [if_pos hi]
  · intro i hi
    simp only [make_logic_row]
    rw [if_pos hi]
  · intro i hi
    have l1 : 2 * i < 8 := by omega
    have l2 : 2 * i + 1 < 8 := by omega
    have e1 : 2 * i / 2 = i := by omega
    have e2 : (2 * i + 1) / 2 = i := by omega
    have e3 : 2 * i % 2 = 0 := by omega
    have e4 : (2 * i + 1) % 2 = 1 := by omega
    have hlt : bop.result (mem rs.context .Stack (rs.stack_len - 1))
        (mem rs.context .Stack (rs.stack_len - 2))
        / 2 ^ (64 * i) % 2 ^ 64 / 2 ^ 32 < 2 ^ 32 := by omega
    constructor
    · simp only [make_logic_row]
      rw [if_pos l1, e1, if_pos (by rw [e3])]
    · simp only [make_logic_row]
      rw [if_pos l2, e2, if_neg (by rw [e4]; omega)]
      exact Nat.mod_eq_of_lt hlt

/-- Witness for C8: `Xor` on the stack `[12, 10]` (10 on top) pushes
`10 ^^^ 12 = 6` and emits the corresponding logic row. -/
theorem binary_logic_row_and_push_witness :
    2 ≤ 2 ∧ (10 : Nat) < U256_MOD ∧ (12 : Nat) < U256_MOD ∧
    ∃ row t,
      generate_binary_logic_op .Xor ⟨0, false, 0, 2⟩
          (fun _ _ o => if o = 0 then 12 else 10) emptyTraces =
        some (.ok ⟨0, false, 0, 1⟩, t) ∧
      t.logic_rows = [] ++ [row] ∧
      t.memory_ops = [] ++
        [⟨0, 0, .Stack, 1, .read, 10⟩, ⟨1, 0, .Stack, 0, .read, 12⟩,
         ⟨3, 0, .Stack, 0, .write, 10 ^^^ 12⟩] ∧
      (∀ i, ((10 : Nat) ^^^ 12).testBit i
          = (((10 : Nat)).testBit i ^^ ((12 : Nat)).testBit i)) ∧
      row.is_and = 0 ∧ row.is_or = 0 ∧ row.is_xor = 1 ∧
      (∀ i < 256, row.input0 i = if (10 : Nat).testBit i then 1 else 0) ∧
      (∀ i < 256, row.input1 i = if (12 : Nat).testBit i then 1 else 0) ∧
      (∀ i < 4,
        row.result_cols (2 * i) =
          ((10 : Nat) ^^^ 12) / 2 ^ (64 * i) % 2 ^ 64 % 2 ^ 32 ∧
        row.result_cols (2 * i + 1) =
          ((10 : Nat) ^^^ 12) / 2 ^ (64 * i) % 2 ^ 64 / 2 ^ 32) :=
  ⟨by omega, by norm_num [U256_MOD], by norm_num [U256_MOD],
   binary_logic_row_and_push .Xor ⟨0, false, 0, 2⟩
     (fun _ _ o => if o = 0 then 12 else 10) emptyTraces (by decide)
     (by norm_num [U256_MOD]) (by norm_num [U256_MOD])⟩

/-- C2 counterexample: the k-th logged access does NOT always land in the
same channel regardless of opcode: at the same concrete pre-state,
`generate_dup`'s second logged access is the push in channel 3 while
`generate_syscall`'s second logged access is the code read in channel 1 —
so the claim as stated is false. -/
theorem channel_positional_counterexample :
    Option.map (fun p => p.2.channels)
        (generate_dup 0 ⟨0, false, 0, 1⟩ (fun _ _ _ => 0) emptyTraces)
      = some [0, 3] ∧
    Option.map (fun p => p.2.channels)
        (generate_syscall 10 0 ⟨0, false, 0, 1⟩ (fun _ _ _ => 0) emptyTraces)
      = some [0, 1, 2, 3] ∧
    ([0, 3] : List Nat)[1]? ≠ ([0, 1, 2, 3] : List Nat)[1]? :=
  ⟨rfl, rfl, by decide⟩

/-- C2 (amended): each handler assigns its logged accesses a fixed,
deterministic channel sequence, strictly ascending within the step, and
the third logged access of `generate_swap` (the in-place write, channel
`NUM_GP_CHANNELS - 2 = 2`) occupies the same channel as the third logged
access of `generate_syscall` (the third code-byte read, channel 2); but
the k-th logged access is not channel-stable across opcodes, because the
trailing push always lands in the last channel 3 (see the
counterexample). -/
theorem channels_ascending_fixed_per_handler (n : Nat)
    (bop : BinaryLogicOp) (jumptable_addr opcode : Nat)
    (rs : RegistersState) (mem : MemoryState) :
    (1 + n ≤ rs.stack_len →
      Option.map (fun p => p.2.channels)
        (generate_dup n rs mem emptyTraces) = some [0, 3]) ∧
    (2 + n ≤ rs.stack_len →
      Option.map (fun p => p.2.channels)
        (generate_swap n rs mem emptyTraces) = some [0, 1, 2, 3]) ∧
    (jumptable_addr + opcode + 2 < 2 ^ 32 →
      mem 0 .Code (jumptable_addr + opcode) * 2 ^ 16 % U256_MOD
          + mem 0 .Code (jumptable_addr + opcode + 1) * 2 ^ 8 % U256_MOD
          + mem 0 .Code (jumptable_addr + opcode + 2) < 2 ^ 32 →
      Option.map (fun p => p.2.channels)
        (generate_syscall jumptable_addr opcode rs mem emptyTraces)
        = some [0, 1, 2, 3]) ∧
    (2 ≤ rs.stack_len →
      Option.map (fun p => p.2.channels)
        (generate_binary_logic_op bop rs mem emptyTraces)
        = some [0, 1, 3]) ∧
    (1 ≤ rs.stack_len →
      Option.map (fun p => p.2.channels)
        (generate_not rs mem emptyTraces) = some [0, 3]) ∧
    (1 ≤ rs.stack_len →
      Option.map (fun p => p.2.channels)
        (generate_iszero rs mem emptyTraces) = some [0, 3]) ∧
    (2 ≤ rs.stack_len →
      Option.map (fun p => p.2.channels)
        (generate_eq rs mem emptyTraces) = some [0, 1, 3]) ∧
    (1 ≤ rs.stack_len →
      mem rs.context .Stack (rs.stack_len - 1) < 2 ^ 32 →
      Option.map (fun p => p.2.channels)
        (generate_exit_kernel rs mem emptyTraces) = some [0]) ∧
    List.Chain' (· < ·) ([0, 1, 2, 3] : List Nat) ∧
    List.Chain' (· < ·) ([0, 1, 3] : List Nat) ∧
    List.Chain' (· < ·) ([0, 3] : List Nat) ∧
    ([0, 1, 2, 3] : List Nat)[2]? = some (NUM_GP_CHANNELS - 2) := by
  refine ⟨fun h => ?_, fun h => ?_, fun h1 h2 => ?_, fun h => ?_,
    fun h => ?_, fun h => ?_, fun h => ?_, fun h1 h2 => ?_,
    by simp, by simp, by simp, by decide⟩
  · rw [dup_spec n rs mem emptyTraces h]; rfl
  · rw [swap_spec n rs mem emptyTraces h]; rfl
  · rw [syscall_spec jumptable_addr opcode rs mem emptyTraces h1 h2]; rfl
  · rw [binary_logic_spec bop rs mem emptyTraces h]; rfl
  · rw [not_spec rs mem emptyTraces h]; rfl
  · rw [iszero_spec rs mem emptyTraces h]; rfl
  · rw [eq_spec rs mem emptyTraces h]; rfl
  · rw [exit_kernel_spec_small rs mem emptyTraces h1 h2]; rfl

/-- Witness for C2's amended statement: every handler run at one concrete
pre-state (stack height 2, zeroed memory, jump table at base 80) produces
its fixed channel list. -/
theorem channels_ascending_fixed_per_handler_witness :
    Option.map (fun p => p.2.channels)
        (generate_dup 0 ⟨0, false, 0, 2⟩ (fun _ _ _ => 0) emptyTraces)
      = some [0, 3] ∧
    Option.map (fun p => p.2.channels)
        (generate_swap 0 ⟨0, false, 0, 2⟩ (fun _ _ _ => 0) emptyTraces)
      = some [0, 1, 2, 3] ∧
    Option.map (fun p => p.2.channels)
        (generate_syscall 80 0 ⟨0, false, 0, 2⟩ (fun _ _ _ => 0) emptyTraces)
      = some [0, 1, 2, 3] ∧
    Option.map (fun p => p.2.channels)
        (generate_binary_logic_op .And ⟨0, false, 0, 2⟩ (fun _ _ _ => 0)
          emptyTraces)
      = some [0, 1, 3] ∧
    Option.map (fun p => p.2.channels)
        (generate_not ⟨0, false, 0, 2⟩ (fun _ _ _ => 0) emptyTraces)
      = some [0, 3] ∧
    Option.map (fun p => p.2.channels)
        (generate_iszero ⟨0, false, 0, 2⟩ (fun _ _ _ => 0) emptyTraces)
      = some [0, 3] ∧
    Option.map (fun p => p.2.channels)
        (generate_eq ⟨0, false, 0, 2⟩ (fun _ _ _ => 0) emptyTraces)
      = some [0, 1, 3] ∧
    Option.map (fun p => p.2.channels)
        (generate_exit_kernel ⟨0, false, 0, 2⟩ (fun _ _ _ => 0) emptyTraces)
      = some [0] := by
  have c := channels_ascending_fixed_per_handler 0 .And 80 0 ⟨0, false, 0, 2⟩
    (fun _ _ _ => 0)
  exact ⟨c.1 (by decide), c.2.1 (by decide), c.2.2.1 (by decide) (by decide),
    c.2.2.2.1 (by decide), c.2.2.2.2.1 (by decide),
    c.2.2.2.2.2.1 (by decide), c.2.2.2.2.2.2.1 (by decide),
    c.2.2.2.2.2.2.2.1 (by decide) (by decide)⟩

end Claims

end Plonky2Evm
